import Mathlib

/-!
Shallow embedding of the webhook delivery worker of PostHog/hog-rs
(crate hook-worker), covering:
  - the SSRF-resistant DNS resolvers (src/hook-worker/src/dns.rs and
    src/hook-worker/src/safe_resolver.rs),
  - outbound request classification and Retry-After parsing
    (src/hook-worker/src/worker.rs),
  - the per-job dispatch state machine process_webhook_job (worker.rs),
  - the response body sampler (src/hook-worker/src/util.rs),
  - the event ordering of the per-batch task in WebhookWorker::run (worker.rs).

Machine integers are modelled as Nat (all the arithmetic here is far from
overflow: IPv4 octets, HTTP status codes, byte counts). External library
calls (the OS resolver, reqwest send, chrono date parsing) are modelled as
explicit parameters or as small data types carrying their outcome.
-/

namespace HogRs

/-! ## IP addresses and the two DNS resolvers -/

/-- An IP address: IPv4 as four octets, IPv6 as its eight 16-bit segments. -/
inductive IpAddr where
  | v4 (a b c d : Nat)
  | v6 (segs : List Nat)
  deriving DecidableEq, Repr

/-- Rust std Ipv4Addr::is_private: 10.0.0.0/8, 172.16.0.0/12, 192.168.0.0/16. -/
def ipv4_private (a b : Nat) : Bool :=
  a == 10 || (a == 172 && decide (16 ≤ b ∧ b ≤ 31)) || (a == 192 && b == 168)

/-- Rust std Ipv4Addr::is_loopback: 127.0.0.0/8. -/
def ipv4_loopback (a : Nat) : Bool := a == 127

/-- Rust std Ipv4Addr::is_link_local: 169.254.0.0/16. -/
def ipv4_link_local (a b : Nat) : Bool := a == 169 && b == 254

/-- Rust std Ipv4Addr::is_broadcast: 255.255.255.255. -/
def ipv4_broadcast (a b c d : Nat) : Bool :=
  a == 255 && b == 255 && c == 255 && d == 255

/-- Rust std Ipv4Addr::is_multicast: 224.0.0.0/4. -/
def ipv4_multicast (a : Nat) : Bool := decide (224 ≤ a ∧ a ≤ 239)

/-- Rust std Ipv4Addr::is_unspecified: 0.0.0.0. -/
def ipv4_unspecified (a b c d : Nat) : Bool :=
  a == 0 && b == 0 && c == 0 && d == 0

/-- Rust std Ipv4Addr::is_documentation: 192.0.2.0/24, 198.51.100.0/24, 203.0.113.0/24. -/
def ipv4_documentation (a b c : Nat) : Bool :=
  (a == 192 && b == 0 && c == 2) || (a == 198 && b == 51 && c == 100)
    || (a == 203 && b == 0 && c == 113)

/-- Rust std Ipv6Addr::is_loopback: the address ::1. -/
def ipv6_loopback (segs : List Nat) : Bool := segs == [0, 0, 0, 0, 0, 0, 0, 1]

/-- Rust std Ipv6Addr::is_multicast: first octet 0xff, i.e. first segment in ff00..=ffff. -/
def ipv6_multicast (segs : List Nat) : Bool :=
  match segs with
  | s :: _ => decide (0xff00 ≤ s ∧ s ≤ 0xffff)
  | [] => false

/-- Rust std Ipv6Addr::is_unspecified: the address ::. -/
def ipv6_unspecified (segs : List Nat) : Bool := segs == [0, 0, 0, 0, 0, 0, 0, 0]

/-- dns.rs is_global_ipv4: true iff the socket address holds a globally reachable
IPv4 address: first octet not 0 (this network), not private, not loopback, not
link-local, not broadcast. Every IPv6 address is rejected. -/
def is_global_ipv4 (addr : IpAddr) : Bool :=
  match addr with
  | .v4 a b c d =>
      !(a == 0
        || ipv4_private a b
        || ipv4_loopback a
        || ipv4_link_local a b
        || ipv4_broadcast a b c d)
  | .v6 _ => false

/-- The error produced by PublicIPv4Resolver::resolve in dns.rs: the distinguished
NoPublicIPError, the propagated OS resolver error, or the Interrupted I/O error for
a cancelled blocking task. (A non-cancelled join failure panics and is not a value.) -/
inductive ResolveError where
  | noPublicIP
  | osError (msg : String)
  | interrupted
  deriving DecidableEq, Repr

/-- Outcome of the blocking call to the OS resolver inside spawn_blocking:
successful resolution with an address list, an OS resolver error, or
cancellation of the blocking task. -/
inductive OsResolution where
  | ok (addrs : List IpAddr)
  | failed (msg : String)
  | cancelled
  deriving DecidableEq, Repr

/-- dns.rs PublicIPv4Resolver::resolve, after the blocking OS resolution completes:
filter the returned addresses with is_global_ipv4; if the filtered list is empty,
return NoPublicIPError; otherwise pass the filtered list on. OS resolver errors
propagate, and a cancelled task yields the Interrupted error. -/
def PublicIPv4Resolver_resolve (r : OsResolution) : Except ResolveError (List IpAddr) :=
  match r with
  | .ok all_addrs =>
      let filtered_addr := all_addrs.filter is_global_ipv4
      if filtered_addr.isEmpty then .error .noPublicIP
      else .ok filtered_addr
  | .failed msg => .error (.osError msg)
  | .cancelled => .error .interrupted

/-- safe_resolver.rs validate_addr: an IPv4 address is accepted unless it is
private, loopback, link-local, broadcast, multicast, unspecified or documentation;
an IPv6 address is accepted unless it is loopback, multicast or unspecified. -/
def validate_addr (addr : IpAddr) : Bool :=
  match addr with
  | .v4 a b c d =>
      !(ipv4_private a b
        || ipv4_loopback a
        || ipv4_link_local a b
        || ipv4_broadcast a b c d
        || ipv4_multicast a
        || ipv4_unspecified a b c d
        || ipv4_documentation a b c)
  | .v6 segs =>
      !(ipv6_loopback segs || ipv6_multicast segs || ipv6_unspecified segs)

/-- The error produced by SafeResolver::resolve in safe_resolver.rs: the
io::Error with message Validation failed, or the underlying Gai resolver error. -/
inductive SafeResolveError where
  | validationFailed
  | gaiError (msg : String)
  deriving DecidableEq, Repr

/-- safe_resolver.rs SafeResolver::resolve, after the inner Gai resolution
completes: if any resolved address fails validate_addr, the whole resolution is
rejected with the Validation failed error; otherwise the address list is passed
on unchanged (no filtering). -/
def SafeResolver_resolve (r : Except String (List IpAddr)) :
    Except SafeResolveError (List IpAddr) :=
  match r with
  | .error e => .error (.gaiError e)
  | .ok addrs =>
      if addrs.all validate_addr then .ok addrs
      else .error .validationFailed

/-! ## Status classification and Retry-After parsing (worker.rs) -/

/-- worker.rs is_retryable_status: status 429 (TOO_MANY_REQUESTS) or any 5xx
(reqwest StatusCode::is_server_error, i.e. 500..=599). -/
def is_retryable_status (status : Nat) : Bool :=
  status == 429 || decide (500 ≤ status ∧ status ≤ 599)

/-- reqwest Response::error_for_status produces an error exactly when the status
is a client error (400..=499) or a server error (500..=599). -/
def error_for_status_is_error (status : Nat) : Bool :=
  decide (400 ≤ status ∧ status ≤ 599)

/-- http HeaderValue::to_str succeeds iff every byte is visible ASCII
(32..=126) or horizontal tab. -/
def header_value_to_str_ok (s : String) : Bool :=
  s.data.all (fun c => c.toNat == 9 || decide (32 ≤ c.toNat ∧ c.toNat ≤ 126))

/-- chrono Duration::to_std: converting a signed duration (here in whole seconds)
succeeds iff it is non-negative; a negative duration yields none. -/
def duration_to_std (d : Int) : Option Nat :=
  if 0 ≤ d then some d.toNat else none

/-- worker.rs parse_retry_after_header. The header value is an optional string
(none when the Retry-After header is absent). The two external parsers are
passed as parameters: parseU64 embeds str::parse::<u64>, and parseRfc2822
embeds chrono DateTime::parse_from_rfc2822 returning the parsed instant as a
Unix timestamp in whole seconds; now is Utc::now in the same clock. The code
first fails to none if HeaderValue::to_str fails, then tries the integer
seconds form, then the RFC 2822 date form (whose delta from now survives only
when non-negative, via Duration::to_std), and otherwise yields none. -/
def parse_retry_after_header (header : Option String)
    (parseU64 : String → Option Nat) (parseRfc2822 : String → Option Int)
    (now : Int) : Option Nat :=
  match header with
  | none => none
  | some s =>
      if header_value_to_str_ok s then
        match parseU64 s with
        | some u => some u
        | none =>
            match parseRfc2822 s with
            | some dt => duration_to_std (dt - now)
            | none => none
      else none

/-! ## send_webhook and the dispatch state machine (worker.rs) -/

/-- The cause of a reqwest send failure at the call site in worker.rs: a failure
of the configured DNS resolver (reqwest surfaces resolver errors as connect
errors on send), or any other transport failure (connect, TLS, timeout, ...). -/
inductive SendCause where
  | dns (e : ResolveError)
  | transport (msg : String)
  deriving DecidableEq, Repr

/-- The shapes a reqwest Error takes in worker.rs: an error returned by send,
or an error generated from a response status by error_for_status (which always
carries the status of the response it came from). -/
inductive ReqError where
  | sendFailure (cause : SendCause)
  | statusError (status : Nat)
  deriving DecidableEq, Repr

/-- crate error WebhookError, as constructed and consumed by worker.rs:
parse failures for headers, method and URL, and the two request-error variants
(retryable with an optional Retry-After hint in seconds, and non-retryable). -/
inductive WebhookError where
  | parseHeadersError (msg : String)
  | parseHttpMethodError (msg : String)
  | parseUrlError (msg : String)
  | retryableRequestError (error : ReqError) (retry_after : Option Nat)
  | nonRetryableRetryableRequestError (error : ReqError)
  deriving DecidableEq, Repr

/-- The part of a reqwest Response that worker.rs consumes: the status code and
the raw value of the Retry-After header (none when absent). -/
structure HttpResponse where
  status : Nat
  retry_after_header : Option String
  deriving DecidableEq, Repr

/-- worker.rs send_webhook. URL parsing and header-map conversion are external
(url and http crates) and are embedded as their outcomes; the network send is
embedded as its outcome (a response, or a send failure cause). The code parses
the URL (failure: ParseUrlError), converts the header map (failure:
ParseHeadersError), sends (any send error becomes RetryableRequestError with no
retry_after hint), reads Retry-After before consuming the status, and then
classifies the status via error_for_status and is_retryable_status. -/
def send_webhook (urlParse : Except String Unit) (headersConv : Except String Unit)
    (sendResult : Except SendCause HttpResponse)
    (parseU64 : String → Option Nat) (parseRfc2822 : String → Option Int)
    (now : Int) : Except WebhookError HttpResponse :=
  match urlParse with
  | .error e => .error (.parseUrlError e)
  | .ok _ =>
      match headersConv with
      | .error e => .error (.parseHeadersError e)
      | .ok _ =>
          match sendResult with
          | .error cause => .error (.retryableRequestError (.sendFailure cause) none)
          | .ok response =>
              let retry_after :=
                parse_retry_after_header response.retry_after_header
                  parseU64 parseRfc2822 now
              if error_for_status_is_error response.status then
                if is_retryable_status response.status then
                  .error (.retryableRequestError (.statusError response.status) retry_after)
                else
                  .error (.nonRetryableRetryableRequestError (.statusError response.status))
              else .ok response

/-- The send step of a dispatch whose DNS resolution (through the configured
PublicIPv4Resolver) had outcome r: when the resolver fails, reqwest surfaces the
resolver error as a send (connect) failure; when it succeeds the request
proceeds and yields the given response. -/
def send_step (r : OsResolution) (response : HttpResponse) :
    Except SendCause HttpResponse :=
  match PublicIPv4Resolver_resolve r with
  | .error e => .error (.dns e)
  | .ok _ => .ok response

/-- crate error WebhookJobError, as constructed by worker.rs: a Parse error
record built from a message (WebhookJobError::new_parse), or a record built
from a reqwest error (WebhookJobError::from). -/
inductive WebhookJobError where
  | parse (msg : String)
  | fromRequestError (e : ReqError)
  deriving DecidableEq, Repr

/-- The fields of the leased job that process_webhook_job reads: its attempt
count and its current queue name. -/
structure JobState where
  attempt : Nat
  queue : String
  deriving DecidableEq, Repr

/-- hook_common retry::RetryPolicy as consumed by worker.rs: retry_interval
computes the backoff (seconds) from the attempt count and the optional
Retry-After hint; retry_queue routes the retried job to its next queue. Both
are external to the worker and embedded as abstract functions. -/
structure RetryPolicy where
  retry_interval : Nat → Option Nat → Nat
  retry_queue : String → String

/-- The result of the pgqueue retry finalizer as matched in worker.rs: success,
RetryError::RetryInvalidError (attempts exhausted, the job is handed back), or
RetryError::DatabaseError. -/
inductive RetryOutcome where
  | ok
  | retryInvalid
  | databaseError
  deriving DecidableEq, Repr

/-- Database behavior of the three job finalizers during one run of
process_webhook_job: what retry would return, and whether the complete and fail
round-trips succeed (false embeds a pgqueue DatabaseError). -/
structure DbBehavior where
  retryOutcome : RetryOutcome
  completeOk : Bool
  failOk : Bool
  deriving DecidableEq, Repr

/-- A finalizing state transition successfully applied to the job: completed,
failed with an error record, or retried (rescheduled) with an error record, a
retry interval and a destination queue. -/
inductive Finalization where
  | completed
  | failed (err : WebhookJobError)
  | retried (err : WebhookJobError) (interval : Nat) (queue : String)
  deriving DecidableEq, Repr

/-- crate error WorkerError as returned by process_webhook_job: every returned
error wraps a pgqueue DatabaseError. -/
inductive WorkerError where
  | databaseError
  deriving DecidableEq, Repr

/-- worker.rs process_webhook_job, given the outcome of send_webhook. Returns
the list of finalizations that succeeded on the job together with the value of
the function. On Ok the job is completed; on a parse error it is failed with a
Parse record; on RetryableRequestError a retry is attempted with the interval
and queue computed from the policy, a RetryInvalidError converts to fail with
the same error, and a retry DatabaseError is returned; on
NonRetryableRetryableRequestError the job is failed. A complete or fail whose
database round-trip fails leaves the job unfinalized and returns the error. -/
def process_webhook_job (job : JobState) (retry_policy : RetryPolicy)
    (db : DbBehavior) (send_result : Except WebhookError HttpResponse) :
    List Finalization × Except WorkerError Unit :=
  match send_result with
  | .ok _ =>
      if db.completeOk then ([.completed], .ok ())
      else ([], .error .databaseError)
  | .error (.parseHeadersError e) =>
      if db.failOk then ([.failed (.parse e)], .ok ())
      else ([], .error .databaseError)
  | .error (.parseHttpMethodError e) =>
      if db.failOk then ([.failed (.parse e)], .ok ())
      else ([], .error .databaseError)
  | .error (.parseUrlError e) =>
      if db.failOk then ([.failed (.parse e)], .ok ())
      else ([], .error .databaseError)
  | .error (.retryableRequestError error retry_after) =>
      let retry_interval := retry_policy.retry_interval job.attempt retry_after
      let retry_queue := retry_policy.retry_queue job.queue
      match db.retryOutcome with
      | .ok => ([.retried (.fromRequestError error) retry_interval retry_queue], .ok ())
      | .retryInvalid =>
          if db.failOk then ([.failed (.fromRequestError error)], .ok ())
          else ([], .error .databaseError)
      | .databaseError => ([], .error .databaseError)
  | .error (.nonRetryableRetryableRequestError error) =>
      if db.failOk then ([.failed (.fromRequestError error)], .ok ())
      else ([], .error .databaseError)

/-! ## Response body sampler (util.rs) -/

/-- A UTF-8 continuation byte: 0x80..=0xbf. -/
def utf8_cont (b : Nat) : Bool := decide (0x80 ≤ b ∧ b ≤ 0xbf)

/-- Validity of a byte sequence as UTF-8, as checked by std str::from_utf8:
ASCII bytes stand alone; two-byte leads c2..=df, three-byte leads e0..=ef and
four-byte leads f0..=f4 take continuation bytes, with the usual restricted
ranges on the first continuation byte of e0, ed, f0 and f4 (excluding overlong
encodings and surrogates). -/
def utf8Valid : List Nat → Bool
  | [] => true
  | b :: rest =>
      if b ≤ 0x7f then utf8Valid rest
      else if decide (0xc2 ≤ b ∧ b ≤ 0xdf) then
        match rest with
        | c1 :: rest1 => utf8_cont c1 && utf8Valid rest1
        | [] => false
      else if b == 0xe0 then
        match rest with
        | c1 :: c2 :: rest2 =>
            decide (0xa0 ≤ c1 ∧ c1 ≤ 0xbf) && utf8_cont c2 && utf8Valid rest2
        | _ => false
      else if b == 0xed then
        match rest with
        | c1 :: c2 :: rest2 =>
            decide (0x80 ≤ c1 ∧ c1 ≤ 0x9f) && utf8_cont c2 && utf8Valid rest2
        | _ => false
      else if decide ((0xe1 ≤ b ∧ b ≤ 0xec) ∨ b = 0xee ∨ b = 0xef) then
        match rest with
        | c1 :: c2 :: rest2 => utf8_cont c1 && utf8_cont c2 && utf8Valid rest2
        | _ => false
      else if b == 0xf0 then
        match rest with
        | c1 :: c2 :: c3 :: rest3 =>
            decide (0x90 ≤ c1 ∧ c1 ≤ 0xbf) && utf8_cont c2 && utf8_cont c3
              && utf8Valid rest3
        | _ => false
      else if decide (0xf1 ≤ b ∧ b ≤ 0xf3) then
        match rest with
        | c1 :: c2 :: c3 :: rest3 =>
            utf8_cont c1 && utf8_cont c2 && utf8_cont c3 && utf8Valid rest3
        | _ => false
      else if b == 0xf4 then
        match rest with
        | c1 :: c2 :: c3 :: rest3 =>
            decide (0x80 ≤ c1 ∧ c1 ≤ 0x8f) && utf8_cont c2 && utf8_cont c3
              && utf8Valid rest3
        | _ => false
      else false

/-- Rust str::is_char_boundary on the bytes of a str: index 0 and the length
are boundaries, an in-range index is a boundary iff the byte there is not a
continuation byte, and an out-of-range index is not. -/
def is_char_boundary (bytes : List Nat) (i : Nat) : Bool :=
  if i == 0 then true
  else if i == bytes.length then true
  else
    match bytes[i]? with
    | some b => !utf8_cont b
    | none => false

/-- crate error WebhookResponseError as used by util.rs: the variant built from
a reqwest stream error, and the variant built from a str Utf8Error. -/
inductive WebhookResponseError where
  | streamError
  | utf8Error
  deriving DecidableEq, Repr

/-- The loop of util.rs first_n_bytes_of_response, carrying the accumulated
buffer (the bytes of the Rust String). For each chunk yielded by the byte
stream: break returning the buffer once its length reached n; propagate a
stream error; fail on a chunk that is not valid UTF-8 (the str::from_utf8
question-mark); otherwise slice the chunk to min (n - buffer.len) chunk.len
bytes, which succeeds iff that index is a char boundary (on failure the code
gives up and returns the buffer), and push the slice. -/
def first_n_bytes_go (n : Nat) (buffer : List Nat) :
    List (Except Unit (List Nat)) → Except WebhookResponseError (List Nat)
  | [] => .ok buffer
  | chunk? :: rest =>
      if n ≤ buffer.length then .ok buffer
      else
        match chunk? with
        | .error _ => .error .streamError
        | .ok chunk =>
            if utf8Valid chunk then
              let k := min (n - buffer.length) chunk.length
              if is_char_boundary chunk k then
                first_n_bytes_go n (buffer ++ chunk.take k) rest
              else .ok buffer
            else .error .utf8Error

/-- util.rs first_n_bytes_of_response: run the sampling loop over the chunks of
the response byte stream with an empty buffer. -/
def first_n_bytes_of_response (chunks : List (Except Unit (List Nat))) (n : Nat) :
    Except WebhookResponseError (List Nat) :=
  first_n_bytes_go n [] chunks

/-! ## Event ordering of the per-batch task (WebhookWorker::run, worker.rs) -/

/-- An observable event of the per-batch task spawned by WebhookWorker::run:
the send of a job, the finalization (complete, fail or retry) of a job, the
commit of the batch transaction, and the release (drop) of the semaphore
permits. -/
inductive BatchEvent where
  | send (j : Nat)
  | finalize (j : Nat)
  | commit
  | releasePermits
  deriving DecidableEq, Repr

/-- An order-preserving merge of several event sequences into one, modelling
the cooperative concurrency of join_all over the per-job futures: at each step
the scheduler either runs the next event of one of the sequences or discards an
exhausted sequence. -/
inductive Interleaving {α : Type} : List (List α) → List α → Prop where
  | nil : Interleaving [] []
  | dropAt (ls₁ ls₂ : List (List α)) (t : List α) :
      Interleaving (ls₁ ++ ls₂) t → Interleaving (ls₁ ++ ([] :: ls₂)) t
  | pick (ls₁ : List (List α)) (e : α) (l : List α) (ls₂ : List (List α)) (t : List α) :
      Interleaving (ls₁ ++ (l :: ls₂)) t →
      Interleaving (ls₁ ++ ((e :: l) :: ls₂)) (e :: t)

/-- The events of the future built for one job in the batch loop of run: it
awaits send_webhook and only then runs the finalizer on its outcome
(process_webhook_job is sequential within one job). -/
def jobEvents (j : Nat) : List BatchEvent := [.send j, .finalize j]

/-- The traces of the task spawned per batch in WebhookWorker::run: the per-job
futures run concurrently under join_all producing some interleaving of their
event sequences, all outcomes are awaited, then the batch transaction commits,
then the permits are dropped. -/
def BatchTaskTrace (jobs : List Nat) (t : List BatchEvent) : Prop :=
  ∃ s, Interleaving (jobs.map jobEvents) s ∧ t = s ++ [.commit, .releasePermits]

instance {e a : Type} [DecidableEq e] [DecidableEq a] : DecidableEq (Except e a) := fun x y =>
  match x, y with
  | .ok u, .ok v => if h : u = v then .isTrue (by rw [h]) else .isFalse (by simp [h])
  | .error u, .error v => if h : u = v then .isTrue (by rw [h]) else .isFalse (by simp [h])
  | .ok _, .error _ => .isFalse (by simp)
  | .error _, .ok _ => .isFalse (by simp)

lemma first_n_go_of_le (n : Nat) (buffer : List Nat)
    (l : List (Except Unit (List Nat))) (h : n ≤ buffer.length) :
    first_n_bytes_go n buffer l = .ok buffer := by
  cases l with
  | nil => rfl
  | cons c rest => simp [first_n_bytes_go, h]

lemma is_char_boundary_length (c : List Nat) : is_char_boundary c c.length = true := by
  by_cases h : c.length = 0 <;> simp [is_char_boundary, h]

lemma first_n_go_length_le (n : Nat) :
    ∀ (l : List (Except Unit (List Nat))) (buffer : List Nat), buffer.length ≤ n →
    ∀ out, first_n_bytes_go n buffer l = .ok out → out.length ≤ n := by
  intro l
  induction l with
  | nil =>
      intro buffer h out hout
      simp only [first_n_bytes_go, Except.ok.injEq] at hout
      exact hout ▸ h
  | cons c rest ih =>
      intro buffer h out hout
      simp only [first_n_bytes_go] at hout
      by_cases hn : n ≤ buffer.length
      · rw [if_pos hn] at hout
        simp only [Except.ok.injEq] at hout
        exact hout ▸ h
      · rw [if_neg hn] at hout
        cases c with
        | error e => simp at hout
        | ok chunk =>
            by_cases hu : utf8Valid chunk = true
            · simp only [hu, if_true] at hout
              by_cases hb :
                  is_char_boundary chunk (min (n - buffer.length) chunk.length) = true
              · rw [if_pos hb] at hout
                refine ih (buffer ++ chunk.take (min (n - buffer.length) chunk.length))
                  ?_ out hout
                have := Nat.min_le_left (n - buffer.length) chunk.length
                simp only [List.length_append, List.length_take]
                omega
              · rw [if_neg hb] at hout
                simp only [Except.ok.injEq] at hout
                exact hout ▸ h
            · simp only [hu, if_false] at hout
              simp at hout

lemma first_n_go_extends (n : Nat) :
    ∀ (cs : List (List Nat)) (buffer out : List Nat),
    first_n_bytes_go n buffer (cs.map .ok) = .ok out →
    ∃ t, out ++ t = buffer ++ cs.flatten := by
  intro cs
  induction cs with
  | nil =>
      intro buffer out hout
      simp only [List.map_nil, first_n_bytes_go, Except.ok.injEq] at hout
      exact ⟨[], by simp [hout]⟩
  | cons c cs ih =>
      intro buffer out hout
      simp only [List.map_cons, first_n_bytes_go] at hout
      by_cases hn : n ≤ buffer.length
      · rw [if_pos hn] at hout
        simp only [Except.ok.injEq] at hout
        exact ⟨c ++ cs.flatten, by simp [hout.symm, List.flatten_cons]⟩
      · rw [if_neg hn] at hout
        by_cases hu : utf8Valid c = true
        · simp only [hu, if_true] at hout
          by_cases hb : is_char_boundary c (min (n - buffer.length) c.length) = true
          · rw [if_pos hb] at hout
            by_cases hk : c.length ≤ n - buffer.length
            · rw [Nat.min_eq_right hk, List.take_length] at hout
              obtain ⟨t, ht⟩ := ih (buffer ++ c) out hout
              refine ⟨t, ?_⟩
              rw [ht, List.flatten_cons, List.append_assoc]
            · rw [Nat.min_eq_left (by omega)] at hout
              rw [first_n_go_of_le n _ _ (by simp [List.length_take]; omega)] at hout
              simp only [Except.ok.injEq] at hout
              refine ⟨c.drop (n - buffer.length) ++ cs.flatten, ?_⟩
              rw [← hout, List.flatten_cons, List.append_assoc,
                ← List.append_assoc (c.take (n - buffer.length)), List.take_append_drop,
                ← List.append_assoc]
          · rw [if_neg hb] at hout
            simp only [Except.ok.injEq] at hout
            exact ⟨c ++ cs.flatten, by simp [hout.symm, List.flatten_cons]⟩
        · simp only [hu, if_false] at hout
          simp at hout

lemma first_n_go_exact (n : Nat) :
    ∀ (cs : List (List Nat)) (buffer : List Nat),
    (∀ c ∈ cs, utf8Valid c = true) → buffer.length + cs.flatten.length ≤ n →
    first_n_bytes_go n buffer (cs.map .ok) = .ok (buffer ++ cs.flatten) := by
  intro cs
  induction cs with
  | nil =>
      intro buffer hv hl
      simp [first_n_bytes_go]
  | cons c cs ih =>
      intro buffer hv hl
      simp only [List.flatten_cons, List.length_append] at hl
      by_cases hn : n ≤ buffer.length
      · have hc : c = [] := by
          have : c.length = 0 := by omega
          exact List.length_eq_zero.mp this
        have hcs : cs.flatten = [] := by
          have : cs.flatten.length = 0 := by omega
          exact List.length_eq_zero.mp this
        subst hc
        simp only [List.map_cons, first_n_bytes_go, if_pos hn]
        simp [List.flatten_cons, hcs]
      · have hu : utf8Valid c = true := hv c (by simp)
        have hk : min (n - buffer.length) c.length = c.length :=
          Nat.min_eq_right (by omega)
        simp only [List.map_cons, first_n_bytes_go, if_neg hn, hu, if_true, hk,
          List.take_length, is_char_boundary_length, if_pos]
        rw [ih (buffer ++ c) (fun x hx => hv x (by simp [hx]))
          (by simp only [List.length_append]; omega)]
        rw [List.flatten_cons, List.append_assoc]

lemma interleaving_sublist {α : Type} {ls : List (List α)} {t : List α}
    (h : Interleaving ls t) : ∀ l ∈ ls, l.Sublist t := by
  induction h with
  | nil => intro l hl; cases hl
  | dropAt ls₁ ls₂ t h ih =>
      intro l hl
      rcases List.mem_append.mp hl with h1 | h2
      · exact ih l (List.mem_append.mpr (Or.inl h1))
      · rcases List.mem_cons.mp h2 with rfl | h3
        · exact List.nil_sublist t
        · exact ih l (List.mem_append.mpr (Or.inr h3))
  | pick ls₁ e l₀ ls₂ t h ih =>
      intro l hl
      rcases List.mem_append.mp hl with h1 | h2
      · exact (ih l (List.mem_append.mpr (Or.inl h1))).cons e
      · rcases List.mem_cons.mp h2 with rfl | h3
        · exact (ih l₀ (List.mem_append.mpr (Or.inr (List.mem_cons_self l₀ ls₂)))).cons₂ e
        · exact (ih l (List.mem_append.mpr (Or.inr (List.mem_cons_of_mem _ h3)))).cons e

lemma interleaving_mem {α : Type} {ls : List (List α)} {t : List α}
    (h : Interleaving ls t) : ∀ e ∈ t, ∃ l ∈ ls, e ∈ l := by
  induction h with
  | nil => intro e he; cases he
  | dropAt ls₁ ls₂ t h ih =>
      intro e he
      obtain ⟨l, hl, hel⟩ := ih e he
      rcases List.mem_append.mp hl with h1 | h2
      · exact ⟨l, List.mem_append.mpr (Or.inl h1), hel⟩
      · exact ⟨l, List.mem_append.mpr (Or.inr (List.mem_cons_of_mem _ h2)), hel⟩
  | pick ls₁ e l₀ ls₂ t h ih =>
      intro x hx
      rcases List.mem_cons.mp hx with rfl | hxt
      · exact ⟨x :: l₀, List.mem_append.mpr (Or.inr (List.mem_cons_self _ _)),
          List.mem_cons_self x l₀⟩
      · obtain ⟨l, hl, hel⟩ := ih x hxt
        rcases List.mem_append.mp hl with h1 | h2
        · exact ⟨l, List.mem_append.mpr (Or.inl h1), hel⟩
        · rcases List.mem_cons.mp h2 with rfl | h3
          · exact ⟨e :: l, List.mem_append.mpr (Or.inr (List.mem_cons_self _ _)),
              List.mem_cons_of_mem e hel⟩
          · exact ⟨l, List.mem_append.mpr (Or.inr (List.mem_cons_of_mem _ h3)), hel⟩

lemma sublist_pair_getElem {α : Type} {a b : α} :
    ∀ {s : List α}, [a, b].Sublist s →
    ∃ i k : Nat, i < k ∧ s[i]? = some a ∧ s[k]? = some b := by
  intro s
  induction s with
  | nil => intro h; cases h
  | cons x s ih =>
      intro h
      cases h with
      | cons _ h1 =>
          obtain ⟨i, k, hik, ha, hb⟩ := ih h1
          exact ⟨i + 1, k + 1, by omega, by simpa using ha, by simpa using hb⟩
      | cons₂ _ h1 =>
          have hbmem : b ∈ s := h1.subset (List.mem_cons_self b [])
          obtain ⟨k, hk⟩ := List.mem_iff_getElem?.mp hbmem
          exact ⟨0, k + 1, by omega, by simp, by simpa using hk⟩

/-- C1 (counterexample): a dispatch whose DNS resolution yields only the
private address 10.0.0.1 (so the filtered set is empty) does produce the
distinguished NoPublicIP resolver error, but the Dispatcher does not classify
it as non-retryable: send_webhook wraps the send failure as the retryable
variant, and process_webhook_job retries the job (the sole finalization is a
retry, not a fail). -/
theorem c1_counterexample :
    PublicIPv4Resolver_resolve (.ok [.v4 10 0 0 1]) = .error .noPublicIP ∧
    send_webhook (.ok ()) (.ok ()) (send_step (.ok [.v4 10 0 0 1]) ⟨200, none⟩)
        (fun _ => none) (fun _ => none) 0 =
      .error (.retryableRequestError (.sendFailure (.dns .noPublicIP)) none) ∧
    (process_webhook_job ⟨1, "default"⟩ ⟨fun _ _ => 60, fun q => q⟩ ⟨.ok, true, true⟩
        (send_webhook (.ok ()) (.ok ()) (send_step (.ok [.v4 10 0 0 1]) ⟨200, none⟩)
          (fun _ => none) (fun _ => none) 0)).1 =
      [.retried (.fromRequestError (.sendFailure (.dns .noPublicIP))) 60 "default"] := by
  decide

/-- C1 (amended): for every dispatch whose DNS resolution yields an empty
filtered address set, the PublicIPv4Resolver returns the distinguished
NoPublicIP error, but the Dispatcher classifies the resulting send failure as
retryable (RetryableRequestError, with no Retry-After hint): the job is retried
when the retry finalizer accepts, and is failed only when it refuses with
RetryInvalidError (attempts exhausted). -/
theorem c1_amended (addrs : List IpAddr) (h : addrs.filter is_global_ipv4 = [])
    (resp : HttpResponse) (job : JobState) (policy : RetryPolicy)
    (pu : String → Option Nat) (pd : String → Option Int) (now : Int) :
    PublicIPv4Resolver_resolve (.ok addrs) = .error .noPublicIP ∧
    send_webhook (.ok ()) (.ok ()) (send_step (.ok addrs) resp) pu pd now =
      .error (.retryableRequestError (.sendFailure (.dns .noPublicIP)) none) ∧
    (∀ db : DbBehavior, db.retryOutcome = .ok →
      process_webhook_job job policy db
          (send_webhook (.ok ()) (.ok ()) (send_step (.ok addrs) resp) pu pd now) =
        ([.retried (.fromRequestError (.sendFailure (.dns .noPublicIP)))
          (policy.retry_interval job.attempt none) (policy.retry_queue job.queue)], .ok ())) ∧
    (∀ db : DbBehavior, db.retryOutcome = .retryInvalid → db.failOk = true →
      process_webhook_job job policy db
          (send_webhook (.ok ()) (.ok ()) (send_step (.ok addrs) resp) pu pd now) =
        ([.failed (.fromRequestError (.sendFailure (.dns .noPublicIP)))], .ok ())) := by
  have hres : PublicIPv4Resolver_resolve (.ok addrs) = .error .noPublicIP := by
    simp [PublicIPv4Resolver_resolve, h]
  have hsend : send_webhook (.ok ()) (.ok ()) (send_step (.ok addrs) resp) pu pd now =
      .error (.retryableRequestError (.sendFailure (.dns .noPublicIP)) none) := by
    simp [send_webhook, send_step, hres]
  refine ⟨hres, hsend, ?_, ?_⟩
  · intro db hro
    rw [hsend]
    simp [process_webhook_job, hro]
  · intro db hro hfo
    rw [hsend]
    simp [process_webhook_job, hro, hfo]

theorem c1_amended_witness :
    PublicIPv4Resolver_resolve (.ok [.v4 192 168 1 7]) = .error .noPublicIP ∧
    send_webhook (.ok ()) (.ok ()) (send_step (.ok [.v4 192 168 1 7]) ⟨200, none⟩)
        (fun _ => none) (fun _ => none) 0 =
      .error (.retryableRequestError (.sendFailure (.dns .noPublicIP)) none) ∧
    process_webhook_job ⟨1, "default"⟩ ⟨fun _ _ => 30, fun _ => "slow"⟩
        ⟨.ok, true, true⟩
        (send_webhook (.ok ()) (.ok ()) (send_step (.ok [.v4 192 168 1 7]) ⟨200, none⟩)
          (fun _ => none) (fun _ => none) 0) =
      ([.retried (.fromRequestError (.sendFailure (.dns .noPublicIP))) 30 "slow"],
        .ok ()) ∧
    process_webhook_job ⟨5, "default"⟩ ⟨fun _ _ => 30, fun _ => "slow"⟩
        ⟨.retryInvalid, true, true⟩
        (send_webhook (.ok ()) (.ok ()) (send_step (.ok [.v4 192 168 1 7]) ⟨200, none⟩)
          (fun _ => none) (fun _ => none) 0) =
      ([.failed (.fromRequestError (.sendFailure (.dns .noPublicIP)))], .ok ()) :=
  ⟨(c1_amended [.v4 192 168 1 7] (by decide) ⟨200, none⟩ ⟨1, "default"⟩
      ⟨fun _ _ => 30, fun _ => "slow"⟩ (fun _ => none) (fun _ => none) 0).1,
    (c1_amended [.v4 192 168 1 7] (by decide) ⟨200, none⟩ ⟨1, "default"⟩
      ⟨fun _ _ => 30, fun _ => "slow"⟩ (fun _ => none) (fun _ => none) 0).2.1,
    (c1_amended [.v4 192 168 1 7] (by decide) ⟨200, none⟩ ⟨1, "default"⟩
      ⟨fun _ _ => 30, fun _ => "slow"⟩ (fun _ => none) (fun _ => none) 0).2.2.1
      ⟨.ok, true, true⟩ rfl,
    (c1_amended [.v4 192 168 1 7] (by decide) ⟨200, none⟩ ⟨5, "default"⟩
      ⟨fun _ _ => 30, fun _ => "slow"⟩ (fun _ => none) (fun _ => none) 0).2.2.2
      ⟨.retryInvalid, true, true⟩ rfl rfl⟩

/-- C2: for every HTTP response received by send_webhook (any status an http
StatusCode can hold), classification is bit-exact in the status code: a status
in [200, 400) is returned as success, a status of 429 or in [500, 600) yields
the retryable error variant carrying the parsed Retry-After hint, and a status
in [400, 500) other than 429 yields the non-retryable error variant. -/
theorem c2_status_classification (status : Nat) (hlo : 100 ≤ status) (hhi : status ≤ 999)
    (hdr : Option String) (pu : String → Option Nat) (pd : String → Option Int) (now : Int) :
    (200 ≤ status ∧ status < 400 →
      send_webhook (.ok ()) (.ok ()) (.ok ⟨status, hdr⟩) pu pd now = .ok ⟨status, hdr⟩) ∧
    (status = 429 ∨ (500 ≤ status ∧ status < 600) →
      send_webhook (.ok ()) (.ok ()) (.ok ⟨status, hdr⟩) pu pd now =
        .error (.retryableRequestError (.statusError status)
          (parse_retry_after_header hdr pu pd now))) ∧
    (400 ≤ status ∧ status < 500 ∧ status ≠ 429 →
      send_webhook (.ok ()) (.ok ()) (.ok ⟨status, hdr⟩) pu pd now =
        .error (.nonRetryableRetryableRequestError (.statusError status))) := by
  refine ⟨fun h => ?_, fun h => ?_, fun h => ?_⟩ <;>
    simp only [send_webhook, error_for_status_is_error, is_retryable_status,
      beq_iff_eq, decide_eq_true_eq] <;>
    split_ifs with h1 h2 <;> first | rfl | omega | (exfalso; omega) |
      (simp_all; omega)

theorem c2_witness :
    send_webhook (.ok ()) (.ok ()) (.ok ⟨204, none⟩) (fun _ => none) (fun _ => none) 0 =
      .ok ⟨204, none⟩ ∧
    send_webhook (.ok ()) (.ok ()) (.ok ⟨503, none⟩) (fun _ => none) (fun _ => none) 0 =
      .error (.retryableRequestError (.statusError 503)
        (parse_retry_after_header none (fun _ => none) (fun _ => none) 0)) ∧
    send_webhook (.ok ()) (.ok ()) (.ok ⟨404, none⟩) (fun _ => none) (fun _ => none) 0 =
      .error (.nonRetryableRetryableRequestError (.statusError 404)) :=
  ⟨(c2_status_classification 204 (by decide) (by decide) none (fun _ => none)
      (fun _ => none) 0).1 (by decide),
    (c2_status_classification 503 (by decide) (by decide) none (fun _ => none)
      (fun _ => none) 0).2.1 (by decide),
    (c2_status_classification 404 (by decide) (by decide) none (fun _ => none)
      (fun _ => none) 0).2.2 (by decide)⟩

/-- C3 (counterexample): on an address list holding both a private and a public
IPv4 address, SafeResolver::resolve does not retain the public addresses: it
fails the whole resolution with the validation error instead of passing on the
public subset. -/
theorem c3_counterexample :
    SafeResolver_resolve (.ok [.v4 10 0 0 1, .v4 1 1 1 1]) = .error .validationFailed ∧
    SafeResolver_resolve (.ok [.v4 10 0 0 1, .v4 1 1 1 1]) ≠ .ok [.v4 1 1 1 1] := by
  decide

/-- C3 (amended): it is the PublicIPv4Resolver of dns.rs that retains exactly
the globally routable IPv4 addresses of the resolved list, dropping the first
octet 0 range, RFC1918 private ranges, loopback, link-local and broadcast, and
discarding every IPv6 address, so a list holding both private and public
addresses passes exactly the public ones on; SafeResolver of safe_resolver.rs
does not filter: it passes the list unchanged when every address (IPv4 or
IPv6) passes validate_addr and otherwise rejects the entire resolution with a
validation error. -/
theorem c3_amended (addrs : List IpAddr) :
    (addrs.filter is_global_ipv4 ≠ [] →
      PublicIPv4Resolver_resolve (.ok addrs) = .ok (addrs.filter is_global_ipv4)) ∧
    (∀ res, PublicIPv4Resolver_resolve (.ok addrs) = .ok res →
      res = addrs.filter is_global_ipv4 ∧ res ≠ []) ∧
    (∀ a b c d, is_global_ipv4 (.v4 a b c d) = true ↔
      ¬(a = 0 ∨ (a = 10 ∨ (a = 172 ∧ 16 ≤ b ∧ b ≤ 31) ∨ (a = 192 ∧ b = 168)) ∨
        a = 127 ∨ (a = 169 ∧ b = 254) ∨ (a = 255 ∧ b = 255 ∧ c = 255 ∧ d = 255))) ∧
    (∀ segs, is_global_ipv4 (.v6 segs) = false) ∧
    (∀ res, SafeResolver_resolve (.ok addrs) = .ok res → res = addrs) ∧
    (SafeResolver_resolve (.ok addrs) = .ok addrs ↔ addrs.all validate_addr = true) := by
  refine ⟨?_, ?_, ?_, fun segs => rfl, ?_, ?_⟩
  · intro hne
    simp [PublicIPv4Resolver_resolve, List.isEmpty_iff, hne]
  · intro res hres
    by_cases he : addrs.filter is_global_ipv4 = [] <;>
      simp [PublicIPv4Resolver_resolve, List.isEmpty_iff, he] at hres
    exact ⟨hres.symm, hres ▸ he⟩
  · intro a b c d
    simp only [is_global_ipv4, ipv4_private, ipv4_loopback, ipv4_link_local,
      ipv4_broadcast, Bool.not_eq_true', Bool.or_eq_false_iff, Bool.and_eq_false_iff,
      beq_eq_false_iff_ne, ne_eq, decide_eq_false_iff_not, not_and, not_or]
    omega
  · intro res hres
    by_cases hv : addrs.all validate_addr <;>
      simp [SafeResolver_resolve, hv] at hres
    exact hres.symm
  · constructor
    · intro hres
      by_cases hv : addrs.all validate_addr <;>
        simp [SafeResolver_resolve, hv] at hres ⊢
    · intro hv
      simp [SafeResolver_resolve, hv]

theorem c3_amended_witness :
    PublicIPv4Resolver_resolve (.ok [.v4 10 0 0 1, .v4 1 1 1 1]) = .ok [.v4 1 1 1 1] ∧
    SafeResolver_resolve (.ok [.v4 1 1 1 1]) = .ok [.v4 1 1 1 1] ∧
    is_global_ipv4 (.v4 8 8 8 8) = true :=
  ⟨(c3_amended [.v4 10 0 0 1, .v4 1 1 1 1]).1 (by decide),
    (c3_amended [.v4 1 1 1 1]).2.2.2.2.2.mpr (by decide),
    ((c3_amended []).2.2.1 8 8 8 8).mpr (by decide)⟩

/-- C4: the response body sampler of util.rs, on a stream whose chunk holds
invalid UTF-8, fails with the Utf8Error variant instead of returning the valid
text accumulated so far: with a single chunk of the lone byte 0xff and limit 10
it returns the error, not the empty accumulated text. -/
theorem c4_invalid_utf8_chunk_fails :
    first_n_bytes_of_response [.ok [0xff]] 10 = .error .utf8Error ∧
    first_n_bytes_of_response [.ok [0xff]] 10 ≠ .ok [] := by
  decide

/-- C5: for every Retry-After header value: a value the u64 parser accepts
yields that many seconds; otherwise a value the RFC 2822 parser accepts yields
the delta (date minus now) when positive and none when the delta is negative;
a value neither parser accepts, a value whose bytes are not visible ASCII, and
an absent header all yield none rather than an error. -/
theorem c5_parse_retry_after (pu : String → Option Nat) (pd : String → Option Int)
    (now : Int) (s : String) (hok : header_value_to_str_ok s = true) :
    (∀ u, pu s = some u → parse_retry_after_header (some s) pu pd now = some u) ∧
    (∀ dt, pu s = none → pd s = some dt →
      (0 < dt - now → parse_retry_after_header (some s) pu pd now = some (dt - now).toNat) ∧
      (dt - now < 0 → parse_retry_after_header (some s) pu pd now = none)) ∧
    (pu s = none → pd s = none → parse_retry_after_header (some s) pu pd now = none) ∧
    (∀ t, header_value_to_str_ok t = false →
      parse_retry_after_header (some t) pu pd now = none) ∧
    parse_retry_after_header none pu pd now = none := by
  refine ⟨?_, ?_, ?_, ?_, rfl⟩
  · intro u hu
    simp [parse_retry_after_header, hok, hu]
  · intro dt hu hdt
    constructor
    · intro hpos
      simp [parse_retry_after_header, hok, hu, hdt, duration_to_std]
      omega
    · intro hneg
      simp [parse_retry_after_header, hok, hu, hdt, duration_to_std]
      omega
  · intro hu hd
    simp [parse_retry_after_header, hok, hu, hd]
  · intro t ht
    simp [parse_retry_after_header, ht]

theorem c5_witness :
    parse_retry_after_header (some "120")
      (fun t => if t = "120" then some 120 else none) (fun _ => none) 0 = some 120 ∧
    parse_retry_after_header (some "date") (fun _ => none) (fun _ => some 170) 120 = some 50 ∧
    parse_retry_after_header (some "date") (fun _ => none) (fun _ => some 50) 120 = none ∧
    parse_retry_after_header (some "???") (fun _ => none) (fun _ => none) 0 = none :=
  ⟨(c5_parse_retry_after (fun t => if t = "120" then some 120 else none) (fun _ => none)
      0 "120" (by decide)).1 120 (by simp),
    ((c5_parse_retry_after (fun _ => none) (fun _ => some 170) 120 "date" (by decide)).2.1
      170 rfl rfl).1 (by decide),
    ((c5_parse_retry_after (fun _ => none) (fun _ => some 50) 120 "date" (by decide)).2.1
      50 rfl rfl).2 (by decide),
    (c5_parse_retry_after (fun _ => none) (fun _ => none) 0 "???" (by decide)).2.2.1 rfl rfl⟩

/-- C6: for every response body (a list of chunks) and sampling limit n, a
successful run of the sampler returns a prefix of the body of byte length at
most n; a body of exactly n bytes (in valid UTF-8 chunks) is captured in full;
and a body one byte longer is never returned whole. -/
theorem c6_sampler_prefix_and_bound (cs : List (List Nat)) (n : Nat) :
    (∀ out, first_n_bytes_of_response (cs.map .ok) n = .ok out →
      out.length ≤ n ∧ ∃ t, out ++ t = cs.flatten) ∧
    ((∀ c ∈ cs, utf8Valid c = true) → cs.flatten.length = n →
      first_n_bytes_of_response (cs.map .ok) n = .ok cs.flatten) ∧
    (∀ out, cs.flatten.length = n + 1 →
      first_n_bytes_of_response (cs.map .ok) n = .ok out → out ≠ cs.flatten) := by
  refine ⟨?_, ?_, ?_⟩
  · intro out hout
    refine ⟨first_n_go_length_le n (cs.map .ok) [] (by simp) out hout, ?_⟩
    obtain ⟨t, ht⟩ := first_n_go_extends n cs [] out hout
    exact ⟨t, by simpa using ht⟩
  · intro hv hl
    have := first_n_go_exact n cs [] hv (by simp [hl])
    simpa [first_n_bytes_of_response] using this
  · intro out hl hout hcontra
    have hle := first_n_go_length_le n (cs.map .ok) [] (by simp) out hout
    rw [hcontra] at hle
    omega

theorem c6_witness :
    ([104, 105, 33] : List Nat).length ≤ 3 ∧
    (∃ t, [104, 105, 33] ++ t = List.flatten [[104, 105], [33, 34]]) ∧
    first_n_bytes_of_response (List.map .ok [[104, 105], [33]]) 3 =
      .ok (List.flatten [[104, 105], [33]]) ∧
    ([104, 105, 33] : List Nat) ≠ List.flatten [[104, 105], [33, 34]] :=
  ⟨((c6_sampler_prefix_and_bound [[104, 105], [33, 34]] 3).1 [104, 105, 33]
      (by decide)).1,
    ((c6_sampler_prefix_and_bound [[104, 105], [33, 34]] 3).1 [104, 105, 33]
      (by decide)).2,
    (c6_sampler_prefix_and_bound [[104, 105], [33]] 3).2.1 (by decide) (by decide),
    (c6_sampler_prefix_and_bound [[104, 105], [33, 34]] 3).2.2 [104, 105, 33]
      (by decide) (by decide)⟩

/-- C7: when the request failed with a retryable error and the retry finalizer
refuses with RetryInvalidError (attempts exhausted), process_webhook_job
converts the outcome to fail with the same error: the only successful
finalization is a fail carrying the error record built from the same request
error, and the function returns Ok. -/
theorem c7_retry_invalid_fails_with_same_error (job : JobState) (policy : RetryPolicy)
    (db : DbBehavior) (error : ReqError) (retry_after : Option Nat)
    (hri : db.retryOutcome = .retryInvalid) (hdb : db.failOk = true) :
    process_webhook_job job policy db (.error (.retryableRequestError error retry_after)) =
      ([.failed (.fromRequestError error)], .ok ()) := by
  simp [process_webhook_job, hri, hdb]

theorem c7_witness :
    process_webhook_job ⟨2, "default"⟩ ⟨fun _ _ => 60, fun q => q⟩
      ⟨.retryInvalid, true, true⟩
      (.error (.retryableRequestError (.statusError 429) (some 5))) =
      ([.failed (.fromRequestError (.statusError 429))], .ok ()) :=
  c7_retry_invalid_fails_with_same_error ⟨2, "default"⟩ ⟨fun _ _ => 60, fun q => q⟩
    ⟨.retryInvalid, true, true⟩ (.statusError 429) (some 5) rfl rfl

/-- C8: a job whose URL fails to parse, whose header map fails to convert, or
whose HTTP method is unknown is treated as non-retryable: send_webhook turns
the first two failures into the corresponding parse-error variants, and for
any of the three parse-error variants process_webhook_job only ever fails the
job with the Parse record (never schedules a retry), regardless of the job
attempt count and of the database behavior. -/
theorem c8_parse_errors_nonretryable (job : JobState) (policy : RetryPolicy)
    (db : DbBehavior) (msg : String) (sr : Except WebhookError HttpResponse)
    (pu : String → Option Nat) (pd : String → Option Int) (now : Int)
    (hsr : sr = .error (.parseUrlError msg) ∨ sr = .error (.parseHeadersError msg) ∨
      sr = .error (.parseHttpMethodError msg)) :
    (∀ hc srr, send_webhook (.error msg) hc srr pu pd now = .error (.parseUrlError msg)) ∧
    (∀ srr, send_webhook (.ok ()) (.error msg) srr pu pd now =
      .error (.parseHeadersError msg)) ∧
    (∀ f ∈ (process_webhook_job job policy db sr).1, f = .failed (.parse msg)) ∧
    (db.failOk = true →
      process_webhook_job job policy db sr = ([.failed (.parse msg)], .ok ())) := by
  refine ⟨fun hc srr => rfl, fun srr => rfl, ?_, ?_⟩ <;>
    rcases hsr with h | h | h <;> subst h <;>
    by_cases hdb : db.failOk <;> simp [process_webhook_job, hdb]

theorem c8_witness :
    process_webhook_job ⟨1, "default"⟩ ⟨fun _ _ => 60, fun q => q⟩ ⟨.ok, true, true⟩
        (.error (.parseUrlError "bad url")) =
      ([.failed (.parse "bad url")], .ok ()) :=
  (c8_parse_errors_nonretryable ⟨1, "default"⟩ ⟨fun _ _ => 60, fun q => q⟩
    ⟨.ok, true, true⟩ "bad url" (.error (.parseUrlError "bad url"))
    (fun _ => none) (fun _ => none) 0 (Or.inl rfl)).2.2.2 rfl

/-- C9: in every trace of the per-batch task of WebhookWorker::run, the trace
decomposes as the interleaved job events followed by the commit and then the
permit release; every event before the commit is a send or a finalize of a job
of the batch (so every finalizer outcome precedes the commit, and the permits
are released only after it); and for every job of the batch its send occurs
strictly before its finalizer. -/
theorem c9_batch_order (jobs : List Nat) (t : List BatchEvent)
    (h : BatchTaskTrace jobs t) :
    ∃ s, t = s ++ [.commit, .releasePermits] ∧
      (∀ e ∈ s, (∃ j ∈ jobs, e = .send j) ∨ (∃ j ∈ jobs, e = .finalize j)) ∧
      (∀ j ∈ jobs, ∃ i k : Nat, i < k ∧ s[i]? = some (.send j) ∧
        s[k]? = some (.finalize j)) := by
  obtain ⟨s, hint, ht⟩ := h
  refine ⟨s, ht, ?_, ?_⟩
  · intro e he
    obtain ⟨l, hl, hel⟩ := interleaving_mem hint e he
    obtain ⟨j, hj, rfl⟩ := List.mem_map.mp hl
    rcases List.mem_cons.mp hel with rfl | hel2
    · exact Or.inl ⟨j, hj, rfl⟩
    · rcases List.mem_cons.mp hel2 with rfl | hel3
      · exact Or.inr ⟨j, hj, rfl⟩
      · cases hel3
  · intro j hj
    exact sublist_pair_getElem
      (interleaving_sublist hint (jobEvents j) (List.mem_map_of_mem jobEvents hj))

theorem c9_witness :
    ∃ s, ([.send 0, .send 1, .finalize 1, .finalize 0, .commit, .releasePermits] :
        List BatchEvent) = s ++ [.commit, .releasePermits] ∧
      (∀ e ∈ s, (∃ j ∈ [0, 1], e = BatchEvent.send j) ∨
        (∃ j ∈ [0, 1], e = BatchEvent.finalize j)) ∧
      (∀ j ∈ [0, 1], ∃ i k : Nat, i < k ∧ s[i]? = some (.send j) ∧
        s[k]? = some (.finalize j)) :=
  c9_batch_order [0, 1]
    [.send 0, .send 1, .finalize 1, .finalize 0, .commit, .releasePermits]
    ⟨[.send 0, .send 1, .finalize 1, .finalize 0], by
      have h3 : Interleaving [([] : List BatchEvent)] [] :=
        Interleaving.dropAt [] [] [] Interleaving.nil
      have h4 : Interleaving [([] : List BatchEvent), []] [] :=
        Interleaving.dropAt [] [[]] [] h3
      have h5 : Interleaving [[BatchEvent.finalize 0], []] [BatchEvent.finalize 0] :=
        Interleaving.pick [] (BatchEvent.finalize 0) [] [[]] [] h4
      have h6 : Interleaving [[BatchEvent.finalize 0], [BatchEvent.finalize 1]]
          [BatchEvent.finalize 1, BatchEvent.finalize 0] :=
        Interleaving.pick [[BatchEvent.finalize 0]] (BatchEvent.finalize 1) [] []
          [BatchEvent.finalize 0] h5
      have h7 : Interleaving
          [[BatchEvent.finalize 0], [BatchEvent.send 1, BatchEvent.finalize 1]]
          [BatchEvent.send 1, BatchEvent.finalize 1, BatchEvent.finalize 0] :=
        Interleaving.pick [[BatchEvent.finalize 0]] (BatchEvent.send 1)
          [BatchEvent.finalize 1] [] [BatchEvent.finalize 1, BatchEvent.finalize 0] h6
      exact Interleaving.pick [] (BatchEvent.send 0) [BatchEvent.finalize 0]
        [[BatchEvent.send 1, BatchEvent.finalize 1]]
        [BatchEvent.send 1, BatchEvent.finalize 1, BatchEvent.finalize 0] h7,
      rfl⟩

/-- C10: in every execution of process_webhook_job, at most one finalization
succeeds on the job; when the function returns Ok exactly one succeeds, and it
is complete when the request succeeded, a successful retry when the error was
retryable and the retry was accepted, and fail otherwise; when the function
returns an error, that error is a database error and the job is left with no
successful finalization. -/
theorem c10_exactly_one_finalization (job : JobState) (policy : RetryPolicy)
    (db : DbBehavior) (sr : Except WebhookError HttpResponse) :
    ((process_webhook_job job policy db sr).2 = .ok () →
      ∃ f, (process_webhook_job job policy db sr).1 = [f] ∧
        (∀ r, sr = .ok r → f = .completed) ∧
        (∀ err ra, sr = .error (.retryableRequestError err ra) → db.retryOutcome = .ok →
          f = .retried (.fromRequestError err)
            (policy.retry_interval job.attempt ra) (policy.retry_queue job.queue)) ∧
        ((∀ r, sr ≠ .ok r) →
          (∀ err ra, sr = .error (.retryableRequestError err ra) → db.retryOutcome ≠ .ok) →
          ∃ e, f = .failed e)) ∧
    (∀ e, (process_webhook_job job policy db sr).2 = .error e →
      e = .databaseError ∧ (process_webhook_job job policy db sr).1 = []) ∧
    (process_webhook_job job policy db sr).1.length ≤ 1 := by
  obtain ⟨ro, co, fo⟩ := db
  cases sr with
  | ok r => cases co <;> simp [process_webhook_job]
  | error we =>
      rcases we with e | e | e | ⟨err, ra⟩ | e <;> cases ro <;> cases co <;> cases fo <;>
        simp [process_webhook_job]

theorem c10_witness :
    ∃ f, (process_webhook_job ⟨1, "default"⟩ ⟨fun _ _ => 60, fun q => q⟩ ⟨.ok, true, true⟩
        (.ok ⟨200, none⟩)).1 = [f] ∧
      (∀ r, (.ok ⟨200, none⟩ : Except WebhookError HttpResponse) = .ok r →
        f = .completed) ∧
      (∀ err ra, (.ok ⟨200, none⟩ : Except WebhookError HttpResponse) =
          .error (.retryableRequestError err ra) →
        (⟨.ok, true, true⟩ : DbBehavior).retryOutcome = .ok →
        f = .retried (.fromRequestError err)
          ((⟨fun _ _ => 60, fun q => q⟩ : RetryPolicy).retry_interval
            (⟨1, "default"⟩ : JobState).attempt ra)
          ((⟨fun _ _ => 60, fun q => q⟩ : RetryPolicy).retry_queue
            (⟨1, "default"⟩ : JobState).queue)) ∧
      ((∀ r, (.ok ⟨200, none⟩ : Except WebhookError HttpResponse) ≠ .ok r) →
        (∀ err ra, (.ok ⟨200, none⟩ : Except WebhookError HttpResponse) =
          .error (.retryableRequestError err ra) →
          (⟨.ok, true, true⟩ : DbBehavior).retryOutcome ≠ .ok) →
        ∃ e, f = .failed e) :=
  (c10_exactly_one_finalization ⟨1, "default"⟩ ⟨fun _ _ => 60, fun q => q⟩
    ⟨.ok, true, true⟩ (.ok ⟨200, none⟩)).1 rfl

end HogRs
